import Mathlib

/-!
# Verification of the tide-link listing-submission and gallery components

Shallow embedding of the two screens of the repository:

* `ListBusiness` (src/unnamed/part_000): the listing-submission form with its
  `handleSubmit` workflow (auth guard, logo upload, concurrent product-image
  uploads joined all-or-nothing, one relational insert, toast/navigate effects).
* `PopularBusinesses` (src/src/components/PopularBusinesses.tsx): the gallery
  with its `fetchBusinesses` handler and `renderStars` rendering helper.
* `BusinessCard` (src/unnamed/part_001): a card component with its own
  `renderStars` using `Math.floor`.

Effects (storage uploads, the insert, toasts, navigation, console logging) are
reified as a trace of `Call` values; the backend is an oracle (`Backend`)
supplying the outcome of each network call, and `Date.now()` is an oracle
`time : Nat → Nat` indexed by call order.  JavaScript values that can be a
string, a list or `null` are modelled by `JVal`, with `x || null` on strings
modelled by `jsOrNull` (the empty string is the only falsy string).
-/

/-- A JavaScript value as it appears in the insert payload: `null`, a string,
or a list of strings. -/
inductive JVal where
  | null : JVal
  | str : String → JVal
  | list : List String → JVal
deriving DecidableEq

/-- JavaScript `s || null` for a string `s`: the empty string is falsy. -/
def jsOrNull (s : String) : JVal :=
  if s = "" then JVal.null else JVal.str s

/-- JavaScript `s || d` for strings: the empty string is falsy. -/
def jsOr (s d : String) : String :=
  if s = "" then d else s

/-- A selected file; only its name is observable to the code. -/
structure JFile where
  name : String
deriving DecidableEq

/-- The authenticated user exposed by the auth collaborator. -/
structure User where
  id : String
deriving DecidableEq

/-- A backend error: the code only ever reads `error.message`. -/
structure Err where
  message : String
deriving DecidableEq

/-- `BusinessFormData` from part_000 lines 16-32: the draft of the listing. -/
structure BusinessFormData where
  name : String
  description : String
  category : String
  phone : String
  licenseExpiredDate : String
  address : String
  city : String
  state : String
  zipCode : String
  website : String
  facebookPage : String
  tiktokUrl : String
  startingPrice : String
  options : List String
  productsCatalog : String
deriving DecidableEq

/-- The submission screen's local state: `loading`, `logoFile`,
`productImages`, `formData` (part_000 lines 59-79). -/
structure FormState where
  loading : Bool
  logoFile : Option JFile
  productImages : List JFile
  formData : BusinessFormData
deriving DecidableEq

/-- `handleOptionChange` (part_000 lines 85-92): a checked event appends the
option, an unchecked event filters it out. -/
def handleOptionChange (options : List String) (option : String) (checked : Bool) :
    List String :=
  if checked then options ++ [option] else options.filter (fun opt => opt ≠ option)

/-- `handleProductImagesChange` (part_000 lines 100-105):
`Array.from(e.target.files).slice(0, 3)` keeps at most the first 3 files. -/
def handleProductImagesChange (files : List JFile) : List JFile :=
  files.take 3

/-- The row inserted into the `businesses` table (part_000 lines 161-180). -/
structure InsertPayload where
  owner_id : JVal
  name : JVal
  description : JVal
  category : JVal
  phone : JVal
  address : JVal
  city : JVal
  state : JVal
  zip_code : JVal
  website : JVal
  image_url : JVal
  facebook_page : JVal
  tiktok_url : JVal
  starting_price : JVal
  business_options : JVal
  products_catalog : JVal
  license_expired_date : JVal
  product_images : JVal
deriving DecidableEq

/-- The object literal passed to `.insert(...)` (part_000 lines 161-180),
field by field. -/
def mkInsertPayload (uid : String) (formData : BusinessFormData)
    (logoUrl : String) (imageUrls : List String) : InsertPayload :=
  { owner_id := JVal.str uid
    name := JVal.str formData.name
    description := JVal.str formData.description
    category := JVal.str formData.category
    phone := JVal.str formData.phone
    address := JVal.str formData.address
    city := JVal.str formData.city
    state := JVal.str formData.state
    zip_code := JVal.str formData.zipCode
    website := JVal.str formData.website
    image_url := jsOrNull logoUrl
    facebook_page := jsOrNull formData.facebookPage
    tiktok_url := jsOrNull formData.tiktokUrl
    starting_price := jsOrNull formData.startingPrice
    business_options := if formData.options.length > 0
      then JVal.list formData.options else JVal.null
    products_catalog := jsOrNull formData.productsCatalog
    license_expired_date := jsOrNull formData.licenseExpiredDate
    product_images := if imageUrls.length > 0
      then JVal.list imageUrls else JVal.null }

/-- One observable effect of the submission workflow. -/
inductive Call where
  | upload : String → String → Bool → Call   -- bucket, path, upsert flag
  | insert : InsertPayload → Call
  | toast : String → String → Bool → Call    -- title, description, destructive
  | navigate : String → Call
  | consoleError : String → Call
deriving DecidableEq

/-- The backend oracle: outcome of each storage upload, the public-URL
derivation (synchronous, never fails), and the outcome of the insert. -/
structure Backend where
  uploadResult : String → String → JFile → Except Err String
  getPublicUrl : String → String → String
  insertResult : InsertPayload → Except Err Unit

/-- `uploadFile` (part_000 lines 107-122): one `upload` call with
`upsert: false`; on error the error is thrown, otherwise the public URL of the
stored path is returned. -/
def uploadFile (b : Backend) (file : JFile) (bucket path : String) :
    List Call × Except Err String :=
  match b.uploadResult bucket path file with
  | Except.error e => ([Call.upload bucket path false], Except.error e)
  | Except.ok storedPath =>
      ([Call.upload bucket path false],
       Except.ok (b.getPublicUrl bucket storedPath))

/-- The logo path `logos/${user.id}/${Date.now()}_${logoFile.name}`
(part_000 line 145). -/
def logoPath (uid : String) (now : Nat) (file : JFile) : String :=
  "logos/" ++ uid ++ "/" ++ toString now ++ "_" ++ file.name

/-- The product-image path
`products/${user.id}/${Date.now()}_${index}_${file.name}` (part_000 line 152). -/
def productImagePath (uid : String) (now : Nat) (index : Nat) (file : JFile) :
    String :=
  "products/" ++ uid ++ "/" ++ toString now ++ "_" ++ toString index ++ "_" ++
    file.name

/-- How many `Date.now()` calls precede the product-image ones: one when a
logo was uploaded, none otherwise. -/
def timeOffset : Option JFile → Nat
  | none => 0
  | some _ => 1

/-- `productImages.map((file, index) => ...)` (part_000 lines 151-154): build
one upload per product image, in index order. -/
def uploadProducts (b : Backend) (time : Nat → Nat) (tOff : Nat) (uid : String) :
    Nat → List JFile → List (List Call × Except Err String)
  | _, [] => []
  | i, f :: rest =>
      uploadFile b f "business-assets" (productImagePath uid (time (tOff + i)) i f) ::
        uploadProducts b time tOff uid (i + 1) rest

/-- `Promise.all` over already-created promises: every call was issued; the
join yields all results, or the first rejection in index order. -/
def promiseAll : List (Except Err String) → Except Err (List String)
  | [] => Except.ok []
  | Except.error e :: _ => Except.error e
  | Except.ok s :: rest =>
      match promiseAll rest with
      | Except.error e => Except.error e
      | Except.ok ss => Except.ok (s :: ss)

/-- The `if (logoFile)` block of `handleSubmit` (part_000 lines 140-147):
`logoUrl` starts as `""` and is replaced by the uploaded logo's public URL. -/
def uploadLogoStep (b : Backend) (time : Nat → Nat) (uid : String) :
    Option JFile → List Call × Except Err String
  | none => ([], Except.ok "")
  | some f => uploadFile b f "business-assets" (logoPath uid (time 0) f)

/-- The `try` block of `handleSubmit` (part_000 lines 139-182): logo upload
first (a failure throws out of the block), then the product-image uploads
joined by `Promise.all`, then the insert. -/
def submitBody (b : Backend) (time : Nat → Nat) (u : User) (st : FormState) :
    List Call × Except Err Unit :=
  match uploadLogoStep b time u.id st.logoFile with
  | (tr, Except.error e) => (tr, Except.error e)
  | (tr, Except.ok logoUrl) =>
      let results := uploadProducts b time (timeOffset st.logoFile) u.id 0
        st.productImages
      let prodTrace := (results.map Prod.fst).flatten
      match promiseAll (results.map Prod.snd) with
      | Except.error e => (tr ++ prodTrace, Except.error e)
      | Except.ok imageUrls =>
          let payload := mkInsertPayload u.id st.formData logoUrl imageUrls
          match b.insertResult payload with
          | Except.error e =>
              (tr ++ prodTrace ++ [Call.insert payload], Except.error e)
          | Except.ok _ =>
              (tr ++ prodTrace ++ [Call.insert payload], Except.ok ())

/-- `handleSubmit` (part_000 lines 124-200): with no user, a destructive toast
and a redirect to the sign-in screen, nothing else; otherwise the body runs
and either a success toast plus navigation to the dashboard, or a console log
plus an error toast whose text is the backend message or a generic fallback.
`setLoading(false)` in the `finally` leaves `loading` false on every
authenticated path; the draft fields are never written. -/
def handleSubmit (b : Backend) (time : Nat → Nat) (user : Option User)
    (st : FormState) : FormState × List Call :=
  match user with
  | none =>
      (st,
       [Call.toast "Authentication Required" "Please sign in to list your business." true,
        Call.navigate "/auth/signin"])
  | some u =>
      match submitBody b time u st with
      | (tr, Except.ok _) =>
          ({ st with loading := false },
           tr ++ [Call.toast "Success!" "Your business has been listed successfully." false,
                  Call.navigate "/dashboard"])
      | (tr, Except.error e) =>
          ({ st with loading := false },
           tr ++ [Call.consoleError ("Error listing business: " ++ e.message),
                  Call.toast "Error"
                    (jsOr e.message "Failed to list business. Please try again.") true])

/-- `true` exactly on storage-upload calls. -/
def isUploadCall : Call → Bool
  | Call.upload _ _ _ => true
  | _ => false

/-- `true` exactly on insert calls. -/
def isInsertCall : Call → Bool
  | Call.insert _ => true
  | _ => false

/-- Number of storage-upload calls in a trace. -/
def countUploads (tr : List Call) : Nat := tr.countP isUploadCall

/-- Number of insert calls in a trace. -/
def countInserts (tr : List Call) : Nat := tr.countP isInsertCall

/-! ## The gallery (`PopularBusinesses`) -/

/-- The `Business` interface of PopularBusinesses.tsx (lines 7-18). -/
structure Business where
  id : String
  name : String
  description : String
  category : String
  city : String
  state : String
  rating : ℚ
  image_url : String
  website : String
  product_images : Option (List String)

/-- The gallery's local state: the business list and the loading flag
(PopularBusinesses.tsx lines 21-22). -/
structure GalleryState where
  businesses : List Business
  loading : Bool

/-- The possible outcomes of `supabase.rpc('get_public_businesses')` as the
handler distinguishes them: a resolved `{data, error}` with `error` null and
`data` present or null, a resolved value with `error` set, or a rejected
promise caught by the `catch`. -/
inductive FetchOutcome where
  | ok : Option (List Business) → FetchOutcome
  | rpcError : Err → FetchOutcome
  | thrown : Err → FetchOutcome

/-- `fetchBusinesses` (PopularBusinesses.tsx lines 28-45): on success replace
the list; on an rpc error log and return early; on a thrown error log; in
every case the `finally` clears `loading`.  Returns the new state and the
console-error log entries. -/
def fetchBusinesses (st : GalleryState) (outcome : FetchOutcome) :
    GalleryState × List String :=
  match outcome with
  | FetchOutcome.ok (some data) => ({ businesses := data, loading := false }, [])
  | FetchOutcome.ok none => ({ st with loading := false }, [])
  | FetchOutcome.rpcError e =>
      ({ st with loading := false }, ["Error fetching businesses: " ++ e.message])
  | FetchOutcome.thrown e =>
      ({ st with loading := false }, ["Error: " ++ e.message])

/-- `renderStars` of the gallery (PopularBusinesses.tsx lines 47-56): five
stars, star `index` filled iff `index < rating`. -/
def renderStars (rating : ℚ) : List Bool :=
  (List.range 5).map (fun (index : ℕ) => decide ((index : ℚ) < rating))

/-- `renderStars` of BusinessCard (part_001 lines 31-42): five stars, star
`i` filled iff `i < Math.floor(rating)`. -/
def renderStarsBusinessCard (rating : ℚ) : List Bool :=
  (List.range 5).map (fun (i : ℕ) => decide ((i : ℤ) < ⌊rating⌋))

/-- Number of filled stars in a star row. -/
def filledCount (stars : List Bool) : Nat := stars.count true

/-- Number of unfilled stars in a star row. -/
def unfilledCount (stars : List Bool) : Nat := stars.count false


/-! ## C1: filled stars in the gallery -/

/-- Comparing a star position with the rating is the same as comparing it with
the rating's ceiling. -/
lemma star_lt_ceil (i : ℕ) (r : ℚ) : ((i : ℚ) < r) ↔ ((i : ℤ) < ⌈r⌉) := by
  rw [Int.lt_ceil]
  norm_cast

/-- Counting the positions below an integer bound among `0, …, n-1`. -/
lemma count_range_lt (c : ℤ) :
    ∀ n : ℕ, ((List.range n).map (fun (i : ℕ) => decide ((i : ℤ) < c))).count true
      = min n (Int.toNat c)
  | 0 => by simp
  | n + 1 => by
      rw [List.range_succ, List.map_append, List.count_append, count_range_lt c n]
      by_cases h : (n : ℤ) < c
      · simp only [List.map_cons, List.map_nil, decide_eq_true h, List.count_cons,
          List.count_nil]
        simp
        omega
      · simp only [List.map_cons, List.map_nil, decide_eq_false h, List.count_cons,
          List.count_nil]
        simp
        omega

/-- The gallery's filled-star count is the rating's ceiling clamped to
`[0, 5]`. -/
lemma filledCount_renderStars (r : ℚ) :
    filledCount (renderStars r) = min 5 (Int.toNat ⌈r⌉) := by
  have h : (fun (index : ℕ) => decide ((index : ℚ) < r))
      = fun (i : ℕ) => decide ((i : ℤ) < ⌈r⌉) := by
    funext i
    simp only [decide_eq_decide]
    exact star_lt_ceil i r
  simp only [renderStars, filledCount, h]
  exact count_range_lt ⌈r⌉ 5

/-- A star row always has five stars. -/
lemma renderStars_length (r : ℚ) : (renderStars r).length = 5 := by
  simp [renderStars]

/-- The filled and unfilled stars together are the five stars. -/
lemma filled_add_unfilled (r : ℚ) :
    filledCount (renderStars r) + unfilledCount (renderStars r) = 5 := by
  have h : ∀ l : List Bool, l.count true + l.count false = l.length := by
    intro l
    induction l with
    | nil => simp
    | cons a l ih =>
        cases a <;> simp [List.count_cons] <;> omega
  rw [← renderStars_length r]
  exact h (renderStars r)

/-- The ceiling of 3.7 is 4. -/
lemma ceil_37_10 : ⌈(37/10 : ℚ)⌉ = 4 := by
  rw [Int.ceil_eq_iff]
  norm_num

/-- C1 counterexample: at rating 3.7 the gallery's star row has 4 filled
stars, not `⌊3.7⌋ = 3` as the claim states. -/
theorem gallery_stars_not_floor_at_3_7 :
    filledCount (renderStars (37/10)) = 4 ∧
    Int.toNat ⌊(37/10 : ℚ)⌋ = 3 ∧
    filledCount (renderStars (37/10)) ≠ Int.toNat ⌊(37/10 : ℚ)⌋ := by
  have h4 : filledCount (renderStars (37/10)) = 4 := by
    rw [filledCount_renderStars, ceil_37_10]
    decide
  have h3 : ⌊(37/10 : ℚ)⌋ = 3 := by norm_num
  refine ⟨h4, ?_, ?_⟩
  · rw [h3]
    decide
  · rw [h4, h3]
    decide

/-- C1 amended: for every rating rendered by the gallery, the number of filled
stars equals the number of the five positions whose index is below the rating,
namely `⌈rating⌉` clamped to `[0, 5]` (not `⌊rating⌋`); with rating 3.7 exactly
4 stars are filled and 1 unfilled. -/
theorem gallery_filled_stars_eq_ceil_clamped :
    (∀ rating : ℚ,
      filledCount (renderStars rating) = min 5 (Int.toNat ⌈rating⌉)) ∧
    filledCount (renderStars (37/10)) = 4 ∧
    unfilledCount (renderStars (37/10)) = 1 := by
  have h4 : filledCount (renderStars (37/10)) = 4 := by
    rw [filledCount_renderStars, ceil_37_10]
    decide
  refine ⟨filledCount_renderStars, h4, ?_⟩
  have h5 := filled_add_unfilled (37/10)
  omega

/-! ## C7: gallery fetch failure -/

/-- C7: on either failure outcome (rpc error field set, or a thrown error)
the fetch handler logs the error, leaves the business list at its prior
value, shows no error state (the state has none) and still clears the
loading flag; the handler is a total function, so the render never throws. -/
theorem fetch_failure_keeps_list_clears_loading (st : GalleryState) (e : Err) :
    fetchBusinesses st (FetchOutcome.rpcError e)
      = ({ businesses := st.businesses, loading := false },
         ["Error fetching businesses: " ++ e.message]) ∧
    fetchBusinesses st (FetchOutcome.thrown e)
      = ({ businesses := st.businesses, loading := false },
         ["Error: " ++ e.message]) :=
  ⟨rfl, rfl⟩

/-! ## C4: submission without an authenticated identity -/

/-- C4: a submit event with no authenticated identity issues no upload and no
insert, notifies the user and redirects to the sign-in screen, and the
handler returns with the component state unchanged. -/
theorem submit_unauthenticated_blocked (b : Backend) (time : Nat → Nat)
    (st : FormState) :
    handleSubmit b time none st
      = (st,
         [Call.toast "Authentication Required"
            "Please sign in to list your business." true,
          Call.navigate "/auth/signin"]) ∧
    countUploads (handleSubmit b time none st).2 = 0 ∧
    countInserts (handleSubmit b time none st).2 = 0 ∧
    (handleSubmit b time none st).1 = st :=
  ⟨rfl, rfl, rfl, rfl⟩

/-! ## Trace structure of the submission workflow -/

/-- An upload always contributes exactly one upload call to the trace. -/
lemma uploadFile_fst (b : Backend) (f : JFile) (bk p : String) :
    (uploadFile b f bk p).1 = [Call.upload bk p false] := by
  unfold uploadFile
  cases b.uploadResult bk p f <;> rfl

/-- Counting uploads distributes over trace concatenation. -/
lemma countUploads_append (t₁ t₂ : List Call) :
    countUploads (t₁ ++ t₂) = countUploads t₁ + countUploads t₂ :=
  List.countP_append _ _ _

/-- Counting inserts distributes over trace concatenation. -/
lemma countInserts_append (t₁ t₂ : List Call) :
    countInserts (t₁ ++ t₂) = countInserts t₁ + countInserts t₂ :=
  List.countP_append _ _ _

/-- A single upload call counts once. -/
lemma countUploads_single (bk p : String) (ups : Bool) :
    countUploads [Call.upload bk p ups] = 1 := by
  simp [countUploads, List.countP_cons, isUploadCall]

/-- The product-image upload group issues exactly one upload call per
selected file. -/
lemma uploadProducts_count (b : Backend) (time : Nat → Nat) (tOff : Nat)
    (uid : String) :
    ∀ (files : List JFile) (i : Nat),
      countUploads (((uploadProducts b time tOff uid i files).map Prod.fst).flatten)
        = files.length
  | [], _ => by simp [uploadProducts, countUploads]
  | f :: rest, i => by
      simp only [uploadProducts, List.map_cons, List.flatten_cons]
      rw [countUploads_append, uploadFile_fst, countUploads_single,
        uploadProducts_count b time tOff uid rest (i + 1)]
      simp only [List.length_cons]
      omega

/-- The product-image upload group contains no insert call. -/
lemma uploadProducts_no_insert (b : Backend) (time : Nat → Nat) (tOff : Nat)
    (uid : String) :
    ∀ (files : List JFile) (i : Nat),
      countInserts (((uploadProducts b time tOff uid i files).map Prod.fst).flatten)
        = 0
  | [], _ => by simp [uploadProducts, countInserts]
  | f :: rest, i => by
      simp only [uploadProducts, List.map_cons, List.flatten_cons]
      rw [countInserts_append, uploadFile_fst,
        uploadProducts_no_insert b time tOff uid rest (i + 1)]
      simp [countInserts, List.countP_cons, isInsertCall]

/-- `Promise.all` succeeds with one result per promise. -/
lemma promiseAll_ok_length :
    ∀ (xs : List (Except Err String)) (ys : List String),
      promiseAll xs = Except.ok ys → ys.length = xs.length
  | [], ys, h => by
      simp only [promiseAll, Except.ok.injEq] at h
      simp [← h]
  | Except.error e :: rest, ys, h => by
      simp [promiseAll] at h
  | Except.ok s :: rest, ys, h => by
      simp only [promiseAll] at h
      rcases hrec : promiseAll rest with e | ss
      · rw [hrec] at h
        simp at h
      · rw [hrec] at h
        simp only [Except.ok.injEq] at h
        have := promiseAll_ok_length rest ss hrec
        simp [← h, this]

/-- One upload group result per selected product image. -/
lemma uploadProducts_length (b : Backend) (time : Nat → Nat) (tOff : Nat)
    (uid : String) :
    ∀ (files : List JFile) (i : Nat),
      (uploadProducts b time tOff uid i files).length = files.length
  | [], _ => rfl
  | f :: rest, i => by
      simp only [uploadProducts, List.length_cons]
      rw [uploadProducts_length b time tOff uid rest (i + 1)]

/-- The per-attempt effects appended by `handleSubmit` after the body (toasts,
navigation, console log) contain no upload and no insert, so the counts of an
authenticated attempt are those of the body. -/
lemma submit_counts (b : Backend) (time : Nat → Nat) (u : User) (st : FormState) :
    countUploads (handleSubmit b time (some u) st).2
      = countUploads (submitBody b time u st).1 ∧
    countInserts (handleSubmit b time (some u) st).2
      = countInserts (submitBody b time u st).1 := by
  simp only [handleSubmit]
  rcases h : submitBody b time u st with ⟨tr, res⟩
  cases res <;>
    simp [countUploads_append, countInserts_append, countUploads, countInserts,
      List.countP_cons, isUploadCall, isInsertCall]

/-- A failed logo upload short-circuits the body. -/
lemma submitBody_logo_error (b : Backend) (time : Nat → Nat) (u : User)
    (st : FormState) (tr : List Call) (e : Err)
    (h : uploadLogoStep b time u.id st.logoFile = (tr, Except.error e)) :
    submitBody b time u st = (tr, Except.error e) := by
  unfold submitBody
  rw [h]

/-- A failed product-image group aborts the body after all its uploads were
issued. -/
lemma submitBody_products_error (b : Backend) (time : Nat → Nat) (u : User)
    (st : FormState) (tr : List Call) (logoUrl : String) (e : Err)
    (h : uploadLogoStep b time u.id st.logoFile = (tr, Except.ok logoUrl))
    (hp : promiseAll ((uploadProducts b time (timeOffset st.logoFile) u.id 0
        st.productImages).map Prod.snd) = Except.error e) :
    submitBody b time u st
      = (tr ++ ((uploadProducts b time (timeOffset st.logoFile) u.id 0
          st.productImages).map Prod.fst).flatten, Except.error e) := by
  unfold submitBody
  rw [h]
  simp only [hp]

/-- With all uploads resolved, the body issues the insert built from the draft
and the upload URLs; the outcome is the insert's outcome. -/
lemma submitBody_insert (b : Backend) (time : Nat → Nat) (u : User)
    (st : FormState) (tr : List Call) (logoUrl : String) (urls : List String)
    (h : uploadLogoStep b time u.id st.logoFile = (tr, Except.ok logoUrl))
    (hp : promiseAll ((uploadProducts b time (timeOffset st.logoFile) u.id 0
        st.productImages).map Prod.snd) = Except.ok urls) :
    submitBody b time u st
      = (tr ++ ((uploadProducts b time (timeOffset st.logoFile) u.id 0
          st.productImages).map Prod.fst).flatten ++
          [Call.insert (mkInsertPayload u.id st.formData logoUrl urls)],
         match b.insertResult (mkInsertPayload u.id st.formData logoUrl urls) with
         | Except.error e => Except.error e
         | Except.ok _ => Except.ok ()) := by
  unfold submitBody
  rw [h]
  simp only [hp]
  cases b.insertResult (mkInsertPayload u.id st.formData logoUrl urls) <;> rfl

/-- No logo selected: the logo step is skipped and `logoUrl` stays `""`. -/
lemma uploadLogoStep_none (b : Backend) (time : Nat → Nat) (uid : String) :
    uploadLogoStep b time uid none = ([], Except.ok "") := rfl

/-- A selected logo whose upload succeeds: one upload call, public URL out. -/
lemma uploadLogoStep_some_ok (b : Backend) (time : Nat → Nat) (uid : String)
    (f : JFile) (sp : String)
    (h : b.uploadResult "business-assets" (logoPath uid (time 0) f) f
      = Except.ok sp) :
    uploadLogoStep b time uid (some f)
      = ([Call.upload "business-assets" (logoPath uid (time 0) f) false],
         Except.ok (b.getPublicUrl "business-assets" sp)) := by
  simp only [uploadLogoStep, uploadFile, h]

/-- A selected logo whose upload fails: one upload call, the error thrown. -/
lemma uploadLogoStep_some_error (b : Backend) (time : Nat → Nat) (uid : String)
    (f : JFile) (e : Err)
    (h : b.uploadResult "business-assets" (logoPath uid (time 0) f) f
      = Except.error e) :
    uploadLogoStep b time uid (some f)
      = ([Call.upload "business-assets" (logoPath uid (time 0) f) false],
         Except.error e) := by
  simp only [uploadLogoStep, uploadFile, h]

/-! ## C3: how many backend calls a submission issues -/

/-- C3: with a logo and N product images (N ≤ 3), a successful logo upload
leads to exactly 1 + N upload calls; a failed logo upload leads to exactly 1
upload call and no insert; with no logo and no product images the attempt
issues exactly one insert and no upload. -/
theorem submission_upload_counts (b : Backend) (time : Nat → Nat) (u : User)
    (st : FormState) :
    (∀ f : JFile, st.logoFile = some f → st.productImages.length ≤ 3 →
      (∀ sp : String,
        b.uploadResult "business-assets" (logoPath u.id (time 0) f) f
          = Except.ok sp →
        countUploads (handleSubmit b time (some u) st).2
          = 1 + st.productImages.length) ∧
      (∀ e : Err,
        b.uploadResult "business-assets" (logoPath u.id (time 0) f) f
          = Except.error e →
        countUploads (handleSubmit b time (some u) st).2 = 1 ∧
        countInserts (handleSubmit b time (some u) st).2 = 0)) ∧
    (st.logoFile = none → st.productImages = [] →
      countUploads (handleSubmit b time (some u) st).2 = 0 ∧
      countInserts (handleSubmit b time (some u) st).2 = 1) := by
  obtain ⟨hcu, hci⟩ := submit_counts b time u st
  constructor
  · intro f hlf _hlen
    constructor
    · intro sp hok
      have hls : uploadLogoStep b time u.id st.logoFile
          = ([Call.upload "business-assets" (logoPath u.id (time 0) f) false],
             Except.ok (b.getPublicUrl "business-assets" sp)) := by
        rw [hlf]
        exact uploadLogoStep_some_ok b time u.id f sp hok
      rw [hcu]
      rcases hpa : promiseAll ((uploadProducts b time (timeOffset st.logoFile)
          u.id 0 st.productImages).map Prod.snd) with e | urls
      · rw [submitBody_products_error b time u st _ _ e hls hpa]
        simp only [countUploads_append, countUploads_single,
          uploadProducts_count]
      · rw [submitBody_insert b time u st _ _ urls hls hpa]
        simp only [countUploads_append, countUploads_single,
          uploadProducts_count]
        simp [countUploads, List.countP_cons, isUploadCall]
    · intro e herr
      have hls : uploadLogoStep b time u.id st.logoFile
          = ([Call.upload "business-assets" (logoPath u.id (time 0) f) false],
             Except.error e) := by
        rw [hlf]
        exact uploadLogoStep_some_error b time u.id f e herr
      have hb := submitBody_logo_error b time u st _ e hls
      constructor
      · rw [hcu, hb, countUploads_single]
      · rw [hci, hb]
        simp [countInserts, List.countP_cons, isInsertCall]
  · intro hnone hempty
    have hls : uploadLogoStep b time u.id st.logoFile = ([], Except.ok "") := by
      rw [hnone]
      exact uploadLogoStep_none b time u.id
    have hpa : promiseAll ((uploadProducts b time (timeOffset st.logoFile)
        u.id 0 st.productImages).map Prod.snd) = Except.ok [] := by
      rw [hempty]
      rfl
    have hb := submitBody_insert b time u st [] "" [] hls hpa
    constructor
    · rw [hcu, hb]
      simp [hempty, uploadProducts, countUploads, List.countP_cons, isUploadCall]
    · rw [hci, hb]
      simp [hempty, uploadProducts, countInserts, List.countP_cons, isInsertCall]

/-! ## Concrete instances used to witness the hypotheses -/

/-- A concrete logo file. -/
def fileA : JFile := ⟨"a.png"⟩

/-- Two concrete product-image files. -/
def fileP1 : JFile := ⟨"p1.png"⟩

/-- Second concrete product-image file. -/
def fileP2 : JFile := ⟨"p2.png"⟩

/-- A concrete draft with every field empty. -/
def draft0 : BusinessFormData :=
  { name := "", description := "", category := "", phone := ""
    licenseExpiredDate := "", address := "", city := "", state := ""
    zipCode := "", website := "", facebookPage := "", tiktokUrl := ""
    startingPrice := "", options := [], productsCatalog := "" }

/-- A backend on which every call succeeds. -/
def bOk : Backend :=
  { uploadResult := fun _ _ _ => Except.ok "stored"
    getPublicUrl := fun _ p => "https://cdn/" ++ p
    insertResult := fun _ => Except.ok () }

/-- A backend on which every upload fails. -/
def bUpFail : Backend :=
  { uploadResult := fun _ _ _ => Except.error ⟨"upload failed"⟩
    getPublicUrl := fun _ p => p
    insertResult := fun _ => Except.ok () }

/-- A constant clock. -/
def time0 : Nat → Nat := fun _ => 1000

/-- A concrete authenticated user. -/
def user1 : User := ⟨"u1"⟩

/-- A concrete state with a logo and two product images. -/
def stWithLogo : FormState :=
  { loading := false, logoFile := some fileA
    productImages := [fileP1, fileP2], formData := draft0 }

/-- A concrete state with no logo and no product images. -/
def stEmpty : FormState :=
  { loading := false, logoFile := none, productImages := [], formData := draft0 }

/-- C3 witness: on the concrete states, a successful run with a logo and two
product images issues 3 uploads; a failed logo upload issues 1 upload and no
insert; with nothing selected, no upload and one insert. -/
theorem submission_upload_counts_witness :
    countUploads (handleSubmit bOk time0 (some user1) stWithLogo).2 = 3 ∧
    countUploads (handleSubmit bUpFail time0 (some user1) stWithLogo).2 = 1 ∧
    countInserts (handleSubmit bUpFail time0 (some user1) stWithLogo).2 = 0 ∧
    countUploads (handleSubmit bOk time0 (some user1) stEmpty).2 = 0 ∧
    countInserts (handleSubmit bOk time0 (some user1) stEmpty).2 = 1 := by
  refine ⟨?_, ?_, ?_, ?_, ?_⟩
  · have h := ((submission_upload_counts bOk time0 user1 stWithLogo).1 fileA rfl
      (by decide)).1 "stored" rfl
    simpa using h
  · exact ((((submission_upload_counts bUpFail time0 user1 stWithLogo).1 fileA rfl
      (by decide)).2 ⟨"upload failed"⟩ rfl)).1
  · exact ((((submission_upload_counts bUpFail time0 user1 stWithLogo).1 fileA rfl
      (by decide)).2 ⟨"upload failed"⟩ rfl)).2
  · exact ((submission_upload_counts bOk time0 user1 stEmpty).2 rfl rfl).1
  · exact ((submission_upload_counts bOk time0 user1 stEmpty).2 rfl rfl).2

/-! ## C2: empty optional text fields in the insert payload -/

/-- C2 counterexample: a draft whose website field is the empty string yields
an insert payload whose website field is the empty string, not null. -/
theorem empty_website_stays_empty_string :
    (mkInsertPayload "u1" draft0 "" []).website = JVal.str "" ∧
    (mkInsertPayload "u1" draft0 "" []).website ≠ JVal.null := by
  constructor
  · rfl
  · intro h
    simp [mkInsertPayload] at h

/-- C2 amended: for every draft, each of the optional text fields facebook
page, tiktok url, starting price, products catalog and license-expiry date
that is the empty string appears as null in the insert payload, each
independently of the others; the website field is passed through verbatim,
so an empty website appears as the empty string, not null. -/
theorem empty_optional_fields_null (fd : BusinessFormData)
    (uid lu : String) (urls : List String) :
    (fd.facebookPage = "" →
      (mkInsertPayload uid fd lu urls).facebook_page = JVal.null) ∧
    (fd.tiktokUrl = "" →
      (mkInsertPayload uid fd lu urls).tiktok_url = JVal.null) ∧
    (fd.startingPrice = "" →
      (mkInsertPayload uid fd lu urls).starting_price = JVal.null) ∧
    (fd.productsCatalog = "" →
      (mkInsertPayload uid fd lu urls).products_catalog = JVal.null) ∧
    (fd.licenseExpiredDate = "" →
      (mkInsertPayload uid fd lu urls).license_expired_date = JVal.null) ∧
    (mkInsertPayload uid fd lu urls).website = JVal.str fd.website := by
  refine ⟨?_, ?_, ?_, ?_, ?_, rfl⟩ <;>
    intro h <;> simp [mkInsertPayload, jsOrNull, h]

/-- A draft where, among the optional text fields, only the facebook page is
empty. -/
def draftMixed : BusinessFormData :=
  { draft0 with
    website := "https://b.example"
    tiktokUrl := "https://t.example"
    startingPrice := "$5"
    productsCatalog := "coffee"
    licenseExpiredDate := "2026-01-01" }

/-- C2 witness: on a draft where only the facebook page is empty among the
optional fields, that field alone is normalized to null, and the website
field is carried over verbatim; on the all-empty draft each of the five
fields is null while website stays the empty string. -/
theorem empty_optional_fields_null_witness :
    (mkInsertPayload "u1" draftMixed "" []).facebook_page = JVal.null ∧
    (mkInsertPayload "u1" draftMixed "" []).website
      = JVal.str "https://b.example" ∧
    (mkInsertPayload "u1" draft0 "" []).facebook_page = JVal.null ∧
    (mkInsertPayload "u1" draft0 "" []).tiktok_url = JVal.null ∧
    (mkInsertPayload "u1" draft0 "" []).starting_price = JVal.null ∧
    (mkInsertPayload "u1" draft0 "" []).products_catalog = JVal.null ∧
    (mkInsertPayload "u1" draft0 "" []).license_expired_date = JVal.null ∧
    (mkInsertPayload "u1" draft0 "" []).website = JVal.str "" := by
  have hm := empty_optional_fields_null draftMixed "u1" "" []
  have h0 := empty_optional_fields_null draft0 "u1" "" []
  exact ⟨hm.1 rfl, hm.2.2.2.2.2, h0.1 rfl, h0.2.1 rfl, h0.2.2.1 rfl,
    h0.2.2.2.1 rfl, h0.2.2.2.2.1 rfl, h0.2.2.2.2.2⟩

/-! ## C5: the business_options field -/

/-- Replaying a sequence of checkbox events through `handleOptionChange`,
starting from a given selection (the screen starts from `[]`,
part_000 line 77). -/
def applyOptionEvents (init : List String) (evs : List (String × Bool)) :
    List String :=
  evs.foldl (fun opts ev => handleOptionChange opts ev.1 ev.2) init

/-- The last event concerning a given option, if any. -/
def lastEventFor : List (String × Bool) → String → Option Bool
  | [], _ => none
  | ev :: rest, o =>
      match lastEventFor rest o with
      | some c => some c
      | none => if ev.1 = o then some ev.2 else none

/-- An option is in the replayed selection iff its last event checked it, or
it was in the initial selection and no event concerned it. -/
lemma mem_applyOptionEvents (o : String) :
    ∀ (evs : List (String × Bool)) (init : List String),
      o ∈ applyOptionEvents init evs
        ↔ (match lastEventFor evs o with
           | some c => c = true
           | none => o ∈ init)
  | [], init => by simp [applyOptionEvents, lastEventFor]
  | (p, c) :: rest, init => by
      have ih := mem_applyOptionEvents o rest (handleOptionChange init p c)
      simp only [applyOptionEvents, List.foldl_cons] at ih ⊢
      rw [ih]
      cases hle : lastEventFor rest o with
      | some c2 => simp [lastEventFor, hle]
      | none =>
          simp only [lastEventFor, hle]
          by_cases hp : p = o
          · subst hp
            cases c
            · simp [handleOptionChange]
            · simp [handleOptionChange]
          · have hop : o ≠ p := fun hh => hp hh.symm
            cases c <;> simp [handleOptionChange, hp, hop]

/-- C5: the business_options field of the constructed insert payload is null
exactly when no option ends up checked; otherwise it is the list of checked
options, whose membership depends only on each option's last event, not on
the order in which the user checked and unchecked. -/
theorem business_options_checked_set (evs : List (String × Bool))
    (fd : BusinessFormData) (uid lu : String) (urls : List String) :
    (∀ o : String,
      o ∈ applyOptionEvents [] evs ↔ lastEventFor evs o = some true) ∧
    ((mkInsertPayload uid { fd with options := applyOptionEvents [] evs }
        lu urls).business_options = JVal.null
      ↔ ∀ o : String, lastEventFor evs o ≠ some true) ∧
    (applyOptionEvents [] evs ≠ [] →
      (mkInsertPayload uid { fd with options := applyOptionEvents [] evs }
        lu urls).business_options = JVal.list (applyOptionEvents [] evs)) := by
  have hmem : ∀ o : String,
      o ∈ applyOptionEvents [] evs ↔ lastEventFor evs o = some true := by
    intro o
    rw [mem_applyOptionEvents o evs []]
    cases hle : lastEventFor evs o with
    | none => simp
    | some c => cases c <;> simp
  refine ⟨hmem, ?_, ?_⟩
  · constructor
    · intro hnull o hchk
      have ho : o ∈ applyOptionEvents [] evs := (hmem o).mpr hchk
      have hlen : (applyOptionEvents [] evs).length > 0 :=
        List.length_pos.mpr (List.ne_nil_of_mem ho)
      simp [mkInsertPayload, hlen] at hnull
    · intro hnone
      have hnil : applyOptionEvents [] evs = [] := by
        by_contra hne
        obtain ⟨o, ho⟩ := List.exists_mem_of_ne_nil _ hne
        exact hnone o ((hmem o).mp ho)
      simp [mkInsertPayload, hnil]
  · intro hne
    have hlen : (applyOptionEvents [] evs).length > 0 :=
      List.length_pos.mpr hne
    simp [mkInsertPayload, hlen]

/-- C5 witness: checking Cash on Delivery, then checking and unchecking
Pickup In-Store, leaves exactly Cash on Delivery checked and in the payload. -/
theorem business_options_checked_set_witness :
    applyOptionEvents []
        [("Cash on Delivery", true), ("Pickup In-Store", true),
         ("Pickup In-Store", false)]
      = ["Cash on Delivery"] ∧
    (mkInsertPayload "u1"
        { draft0 with options := (applyOptionEvents []
            [("Cash on Delivery", true), ("Pickup In-Store", true),
             ("Pickup In-Store", false)]) }
        "" []).business_options = JVal.list ["Cash on Delivery"] := by
  have h := (business_options_checked_set
    [("Cash on Delivery", true), ("Pickup In-Store", true),
     ("Pickup In-Store", false)] draft0 "u1" "" []).2.2 (by decide)
  refine ⟨by decide, ?_⟩
  rw [h]
  decide

/-! ## Shape of the submission trace -/

/-- Any call in the logo step's trace is the single logo upload, with upsert
disabled. -/
lemma mem_logoTrace (b : Backend) (time : Nat → Nat) (uid : String)
    (lf : Option JFile) (c : Call) (h : c ∈ (uploadLogoStep b time uid lf).1) :
    ∃ f, lf = some f ∧
      c = Call.upload "business-assets" (logoPath uid (time 0) f) false := by
  cases lf with
  | none => simp [uploadLogoStep] at h
  | some f =>
      simp only [uploadLogoStep] at h
      rw [uploadFile_fst] at h
      simp only [List.mem_singleton] at h
      exact ⟨f, rfl, h⟩

/-- The logo step's trace has no insert call. -/
lemma countInserts_logoTrace (b : Backend) (time : Nat → Nat) (uid : String)
    (lf : Option JFile) : countInserts (uploadLogoStep b time uid lf).1 = 0 := by
  cases lf with
  | none => simp [uploadLogoStep, countInserts]
  | some f =>
      simp only [uploadLogoStep]
      rw [uploadFile_fst]
      simp [countInserts, List.countP_cons, isInsertCall]

/-- The logo step issues at most one upload call. -/
lemma countUploads_logoTrace (b : Backend) (time : Nat → Nat) (uid : String)
    (lf : Option JFile) : countUploads (uploadLogoStep b time uid lf).1 ≤ 1 := by
  cases lf with
  | none => simp [uploadLogoStep, countUploads]
  | some f =>
      simp only [uploadLogoStep]
      rw [uploadFile_fst, countUploads_single]

/-- Any call in the product group's trace is an upload of one of the selected
files at its indexed product path, with upsert disabled. -/
lemma mem_uploadProducts_trace (b : Backend) (time : Nat → Nat) (tOff : Nat)
    (uid : String) :
    ∀ (files : List JFile) (i : Nat) (c : Call),
      c ∈ ((uploadProducts b time tOff uid i files).map Prod.fst).flatten →
      ∃ j f, files.get? j = some f ∧
        c = Call.upload "business-assets"
          (productImagePath uid (time (tOff + (i + j))) (i + j) f) false
  | [], i, c => by simp [uploadProducts]
  | f :: rest, i, c => by
      intro h
      simp only [uploadProducts, List.map_cons, List.flatten_cons] at h
      rw [uploadFile_fst] at h
      rcases List.mem_append.mp h with h1 | h2
      · simp only [List.mem_singleton] at h1
        refine ⟨0, f, rfl, ?_⟩
        simpa using h1
      · obtain ⟨j, g, hjg, hc⟩ :=
          mem_uploadProducts_trace b time tOff uid rest (i + 1) c h2
        refine ⟨j + 1, g, hjg, ?_⟩
        have harith : i + 1 + j = i + (j + 1) := by omega
        rw [harith] at hc
        exact hc

/-- The three possible traces of the body: logo failure (logo trace alone),
product-group failure (logo then all product uploads), or all uploads followed
by the one insert built from the draft. -/
lemma submitBody_trace_cases (b : Backend) (time : Nat → Nat) (u : User)
    (st : FormState) :
    (submitBody b time u st).1 = (uploadLogoStep b time u.id st.logoFile).1 ∨
    (submitBody b time u st).1
      = (uploadLogoStep b time u.id st.logoFile).1 ++
        ((uploadProducts b time (timeOffset st.logoFile) u.id 0
          st.productImages).map Prod.fst).flatten ∨
    ∃ lu urls, urls.length = st.productImages.length ∧
      (submitBody b time u st).1
        = (uploadLogoStep b time u.id st.logoFile).1 ++
          ((uploadProducts b time (timeOffset st.logoFile) u.id 0
            st.productImages).map Prod.fst).flatten ++
          [Call.insert (mkInsertPayload u.id st.formData lu urls)] := by
  rcases hls : uploadLogoStep b time u.id st.logoFile with ⟨tr, res⟩
  have htr : (uploadLogoStep b time u.id st.logoFile).1 = tr := by rw [hls]
  cases res with
  | error e =>
      left
      rw [submitBody_logo_error b time u st tr e hls]
  | ok lu =>
      rcases hpa : promiseAll ((uploadProducts b time (timeOffset st.logoFile)
          u.id 0 st.productImages).map Prod.snd) with e | urls
      · right; left
        rw [submitBody_products_error b time u st tr lu e hls hpa]
      · right; right
        refine ⟨lu, urls, ?_, ?_⟩
        · have h1 := promiseAll_ok_length _ _ hpa
          rwa [List.length_map, uploadProducts_length] at h1
        · rw [submitBody_insert b time u st tr lu urls hls hpa]

/-- Any call of the body's trace is the logo upload, a product-image upload,
or the insert built from the draft. -/
lemma mem_submitBody_shape (b : Backend) (time : Nat → Nat) (u : User)
    (st : FormState) (c : Call) (h : c ∈ (submitBody b time u st).1) :
    (∃ f, st.logoFile = some f ∧
       c = Call.upload "business-assets" (logoPath u.id (time 0) f) false) ∨
    (∃ j f, st.productImages.get? j = some f ∧
       c = Call.upload "business-assets"
         (productImagePath u.id (time (timeOffset st.logoFile + j)) j f) false) ∨
    (∃ lu urls, urls.length = st.productImages.length ∧
       c = Call.insert (mkInsertPayload u.id st.formData lu urls)) := by
  rcases submitBody_trace_cases b time u st with hc | hc | ⟨lu, urls, hlen, hc⟩
  · rw [hc] at h
    obtain ⟨f, hf, hcall⟩ := mem_logoTrace b time u.id st.logoFile c h
    exact Or.inl ⟨f, hf, hcall⟩
  · rw [hc] at h
    rcases List.mem_append.mp h with h1 | h2
    · obtain ⟨f, hf, hcall⟩ := mem_logoTrace b time u.id st.logoFile c h1
      exact Or.inl ⟨f, hf, hcall⟩
    · obtain ⟨j, f, hjf, hcall⟩ := mem_uploadProducts_trace b time
        (timeOffset st.logoFile) u.id st.productImages 0 c h2
      refine Or.inr (Or.inl ⟨j, f, hjf, ?_⟩)
      simpa using hcall
  · rw [hc] at h
    rcases List.mem_append.mp h with h12 | h3
    · rcases List.mem_append.mp h12 with h1 | h2
      · obtain ⟨f, hf, hcall⟩ := mem_logoTrace b time u.id st.logoFile c h1
        exact Or.inl ⟨f, hf, hcall⟩
      · obtain ⟨j, f, hjf, hcall⟩ := mem_uploadProducts_trace b time
          (timeOffset st.logoFile) u.id st.productImages 0 c h2
        refine Or.inr (Or.inl ⟨j, f, hjf, ?_⟩)
        simpa using hcall
    · simp only [List.mem_singleton] at h3
      exact Or.inr (Or.inr ⟨lu, urls, hlen, h3⟩)

/-- The trace of an authenticated attempt is the body's trace followed by the
success effects or the failure effects, depending on the body's outcome. -/
lemma handleSubmit_trace_eq (b : Backend) (time : Nat → Nat) (u : User)
    (st : FormState) :
    (handleSubmit b time (some u) st).2
      = (submitBody b time u st).1 ++
        (match (submitBody b time u st).2 with
         | Except.ok _ =>
             [Call.toast "Success!"
                "Your business has been listed successfully." false,
              Call.navigate "/dashboard"]
         | Except.error e =>
             [Call.consoleError ("Error listing business: " ++ e.message),
              Call.toast "Error"
                (jsOr e.message "Failed to list business. Please try again.")
                true]) := by
  simp only [handleSubmit]
  rcases hsb : submitBody b time u st with ⟨tr, res⟩
  cases res <;> simp

/-- An authenticated attempt leaves every component of the state unchanged
except the loading flag, cleared by the `finally`. -/
lemma handleSubmit_state (b : Backend) (time : Nat → Nat) (u : User)
    (st : FormState) :
    (handleSubmit b time (some u) st).1 = { st with loading := false } := by
  simp only [handleSubmit]
  rcases hsb : submitBody b time u st with ⟨tr, res⟩
  cases res <;> rfl

/-- The effects appended after the body are toasts, navigation or console
logging: any upload or insert of an authenticated attempt comes from the
body. -/
lemma mem_handleSubmit_body (b : Backend) (time : Nat → Nat) (u : User)
    (st : FormState) (c : Call)
    (hk : isUploadCall c = true ∨ isInsertCall c = true)
    (h : c ∈ (handleSubmit b time (some u) st).2) :
    c ∈ (submitBody b time u st).1 := by
  rw [handleSubmit_trace_eq] at h
  rcases List.mem_append.mp h with h1 | h2
  · exact h1
  · exfalso
    rcases hres : (submitBody b time u st).2 with e | v
    · rw [hres] at h2
      simp only [List.mem_cons, List.mem_singleton, List.not_mem_nil,
        or_false] at h2
      rcases h2 with rfl | rfl <;> simp [isUploadCall, isInsertCall] at hk
    · rw [hres] at h2
      simp only [List.mem_cons, List.mem_singleton, List.not_mem_nil,
        or_false] at h2
      rcases h2 with rfl | rfl <;> simp [isUploadCall, isInsertCall] at hk

/-! ## C10: the payload's owner identity -/

/-- C10: every insert issued by an authenticated submission carries
`owner_id` equal to the authenticated user's id, set by this code in the
payload construction itself. -/
theorem insert_owner_id (b : Backend) (time : Nat → Nat) (u : User)
    (st : FormState) (p : InsertPayload)
    (h : Call.insert p ∈ (handleSubmit b time (some u) st).2) :
    p.owner_id = JVal.str u.id := by
  have hb := mem_handleSubmit_body b time u st (Call.insert p) (Or.inr rfl) h
  rcases mem_submitBody_shape b time u st (Call.insert p) hb with
    ⟨f, _, hcall⟩ | ⟨j, f, _, hcall⟩ | ⟨lu, urls, _, hcall⟩
  · exact absurd hcall (by simp)
  · exact absurd hcall (by simp)
  · have hp : p = mkInsertPayload u.id st.formData lu urls := by
      injection hcall
    rw [hp]
    rfl

/-- C10 witness: the insert issued by the all-succeeding run on the empty
state carries owner_id "u1". -/
theorem insert_owner_id_witness :
    (mkInsertPayload "u1" draft0 "" []).owner_id = JVal.str "u1" :=
  insert_owner_id bOk time0 user1 stEmpty
    (mkInsertPayload "u1" draft0 "" []) (by decide)

/-! ## C6: at most three product images -/

/-- C6: a file-selection event keeps only the first 3 files, the resulting
selection has length at most 3, and every insert payload built from such a
selection has a product_images list with at most 3 entries (or null). -/
theorem product_images_at_most_three (b : Backend) (time : Nat → Nat)
    (u : User) (fs : List JFile) (ld : Bool) (lf : Option JFile)
    (fd : BusinessFormData) (p : InsertPayload) :
    (handleProductImagesChange fs).length ≤ 3 ∧
    handleProductImagesChange fs = fs.take 3 ∧
    (Call.insert p ∈ (handleSubmit b time (some u)
        { loading := ld, logoFile := lf,
          productImages := handleProductImagesChange fs,
          formData := fd }).2 →
      p.product_images = JVal.null ∨
      ∃ l : List String, p.product_images = JVal.list l ∧ l.length ≤ 3) := by
  have hlen3 : (handleProductImagesChange fs).length ≤ 3 := by
    simp only [handleProductImagesChange]
    rw [List.length_take]
    exact min_le_left _ _
  refine ⟨hlen3, rfl, ?_⟩
  intro h
  have hb := mem_handleSubmit_body b time u
    { loading := ld, logoFile := lf,
      productImages := handleProductImagesChange fs, formData := fd }
    (Call.insert p) (Or.inr rfl) h
  rcases mem_submitBody_shape b time u _ (Call.insert p) hb with
    ⟨f, _, hcall⟩ | ⟨j, f, _, hcall⟩ | ⟨lu, urls, hlen, hcall⟩
  · exact absurd hcall (by simp)
  · exact absurd hcall (by simp)
  · have hp : p = mkInsertPayload u.id fd lu urls := by injection hcall
    have hurls : urls.length ≤ 3 := by
      rw [hlen]
      exact hlen3
    subst hp
    by_cases hpos : urls.length > 0
    · right
      refine ⟨urls, ?_, hurls⟩
      simp [mkInsertPayload, hpos]
    · left
      simp [mkInsertPayload, hpos]

/-- C6 witness: selecting four files keeps three; the insert of the
all-succeeding run on that selection has a product_images list of length 3. -/
theorem product_images_at_most_three_witness :
    (handleProductImagesChange [fileP1, fileP2, fileA, fileA]).length ≤ 3 ∧
    ((mkInsertPayload "u1" draft0 ""
        ["https://cdn/stored", "https://cdn/stored", "https://cdn/stored"]).product_images
          = JVal.null ∨
     ∃ l : List String,
       (mkInsertPayload "u1" draft0 ""
         ["https://cdn/stored", "https://cdn/stored", "https://cdn/stored"]).product_images
           = JVal.list l ∧ l.length ≤ 3) := by
  have h := product_images_at_most_three bOk time0 user1
    [fileP1, fileP2, fileA, fileA] false none draft0
    (mkInsertPayload "u1" draft0 ""
      ["https://cdn/stored", "https://cdn/stored", "https://cdn/stored"])
  exact ⟨h.1, h.2.2 (by decide)⟩

/-! ## C9: upload path naming and upsert -/

/-- C9: every upload issued by an authenticated submission has upsert
disabled, and goes to the business-assets bucket under a path namespaced by
the user's id and purpose: the logo under `logos/<uid>/<timestamp>_<name>`,
product image j (j ≤ 2 when at most 3 are selected) under
`products/<uid>/<timestamp>_<j>_<name>`. -/
theorem upload_paths_namespaced (b : Backend) (time : Nat → Nat) (u : User)
    (st : FormState) (hlen : st.productImages.length ≤ 3)
    (bk pa : String) (ups : Bool)
    (h : Call.upload bk pa ups ∈ (handleSubmit b time (some u) st).2) :
    ups = false ∧ bk = "business-assets" ∧
    ((∃ f, st.logoFile = some f ∧
        pa = "logos/" ++ u.id ++ "/" ++ toString (time 0) ++ "_" ++ f.name) ∨
     (∃ j f, j ≤ 2 ∧ st.productImages.get? j = some f ∧
        pa = "products/" ++ u.id ++ "/"
          ++ toString (time (timeOffset st.logoFile + j)) ++ "_"
          ++ toString j ++ "_" ++ f.name)) := by
  have hb := mem_handleSubmit_body b time u st (Call.upload bk pa ups)
    (Or.inl rfl) h
  rcases mem_submitBody_shape b time u st _ hb with
    ⟨f, hf, hcall⟩ | ⟨j, f, hjf, hcall⟩ | ⟨lu, urls, _, hcall⟩
  · injection hcall with h1 h2 h3
    exact ⟨h3, h1, Or.inl ⟨f, hf, h2⟩⟩
  · injection hcall with h1 h2 h3
    have hj : j < st.productImages.length := by
      rcases List.get?_eq_some.mp hjf with ⟨hlt, _⟩
      exact hlt
    exact ⟨h3, h1, Or.inr ⟨j, f, by omega, hjf, h2⟩⟩
  · exact absurd hcall (by simp)

/-- C9 witness: on the all-succeeding run with a logo and two product images,
the logo upload is found at its namespaced, timestamped path with upsert
disabled. -/
theorem upload_paths_namespaced_witness :
    false = false ∧ "business-assets" = "business-assets" ∧
    ((∃ f, stWithLogo.logoFile = some f ∧
        "logos/u1/1000_a.png"
          = "logos/" ++ user1.id ++ "/" ++ toString (time0 0) ++ "_" ++ f.name) ∨
     (∃ j f, j ≤ 2 ∧ stWithLogo.productImages.get? j = some f ∧
        "logos/u1/1000_a.png" = "products/" ++ user1.id ++ "/"
          ++ toString (time0 (timeOffset stWithLogo.logoFile + j)) ++ "_"
          ++ toString j ++ "_" ++ f.name)) :=
  upload_paths_namespaced bOk time0 user1 stWithLogo (by decide)
    "business-assets" "logos/u1/1000_a.png" false (by decide)

/-! ## C8: failure of an upload or of the insert -/

/-- The logo trace contains no insert. -/
lemma countInserts_submitBody_le_one (b : Backend) (time : Nat → Nat)
    (u : User) (st : FormState) :
    countInserts (submitBody b time u st).1 ≤ 1 := by
  rcases submitBody_trace_cases b time u st with hc | hc | ⟨lu, urls, _, hc⟩ <;>
    rw [hc]
  · rw [countInserts_logoTrace]
    omega
  · rw [countInserts_append, countInserts_logoTrace, uploadProducts_no_insert]
    omega
  · rw [countInserts_append, countInserts_append, countInserts_logoTrace,
      uploadProducts_no_insert]
    simp [countInserts, List.countP_cons, isInsertCall]

/-- The body issues at most one upload per selected product image plus at
most one for the logo. -/
lemma countUploads_submitBody_le (b : Backend) (time : Nat → Nat)
    (u : User) (st : FormState) :
    countUploads (submitBody b time u st).1
      ≤ 1 + st.productImages.length := by
  rcases submitBody_trace_cases b time u st with hc | hc | ⟨lu, urls, _, hc⟩ <;>
    rw [hc]
  · have := countUploads_logoTrace b time u.id st.logoFile
    omega
  · rw [countUploads_append, uploadProducts_count]
    have := countUploads_logoTrace b time u.id st.logoFile
    omega
  · rw [countUploads_append, countUploads_append, uploadProducts_count]
    have h1 := countUploads_logoTrace b time u.id st.logoFile
    have h2 : countUploads [Call.insert (mkInsertPayload u.id st.formData lu urls)]
        = 0 := by
      simp [countUploads, List.countP_cons, isUploadCall]
    omega

/-- C8: when the body fails at any upload or at the insert, the attempt ends
with a console log and a destructive toast showing the backend's message, or
the generic fallback when that message is empty; no navigation occurs, the
draft (form fields, logo selection, product-image selection) is unchanged,
and nothing is retried: at most one insert and at most 1 + N uploads are
ever issued. -/
theorem submission_failure_keeps_draft (b : Backend) (time : Nat → Nat)
    (u : User) (st : FormState) (e : Err)
    (hfail : (submitBody b time u st).2 = Except.error e) :
    (handleSubmit b time (some u) st).2
      = (submitBody b time u st).1 ++
        [Call.consoleError ("Error listing business: " ++ e.message),
         Call.toast "Error"
           (if e.message = "" then "Failed to list business. Please try again."
            else e.message) true] ∧
    (∀ r, Call.navigate r ∉ (handleSubmit b time (some u) st).2) ∧
    (handleSubmit b time (some u) st).1.formData = st.formData ∧
    (handleSubmit b time (some u) st).1.logoFile = st.logoFile ∧
    (handleSubmit b time (some u) st).1.productImages = st.productImages ∧
    countInserts (handleSubmit b time (some u) st).2 ≤ 1 ∧
    countUploads (handleSubmit b time (some u) st).2
      ≤ 1 + st.productImages.length := by
  have htr0 := handleSubmit_trace_eq b time u st
  rw [hfail] at htr0
  have htr : (handleSubmit b time (some u) st).2
      = (submitBody b time u st).1 ++
        [Call.consoleError ("Error listing business: " ++ e.message),
         Call.toast "Error"
           (if e.message = "" then "Failed to list business. Please try again."
            else e.message) true] := htr0
  refine ⟨htr, ?_, ?_, ?_, ?_, ?_, ?_⟩
  · intro r hmem
    rw [htr] at hmem
    rcases List.mem_append.mp hmem with h1 | h2
    · rcases mem_submitBody_shape b time u st _ h1 with
        ⟨f, _, hcall⟩ | ⟨j, f, _, hcall⟩ | ⟨lu, urls, _, hcall⟩ <;>
        exact absurd hcall (by simp)
    · simp at h2
  · rw [handleSubmit_state]
  · rw [handleSubmit_state]
  · rw [handleSubmit_state]
  · rw [(submit_counts b time u st).2]
    exact countInserts_submitBody_le_one b time u st
  · rw [(submit_counts b time u st).1]
    exact countUploads_submitBody_le b time u st

/-- C8 witness: on the failing-upload backend with a logo selected, the draft
and selections are unchanged, no navigation occurs, and the failure toast
carries the backend's message. -/
theorem submission_failure_keeps_draft_witness :
    (handleSubmit bUpFail time0 (some user1) stWithLogo).1.formData
        = stWithLogo.formData ∧
    (handleSubmit bUpFail time0 (some user1) stWithLogo).1.logoFile
        = stWithLogo.logoFile ∧
    (handleSubmit bUpFail time0 (some user1) stWithLogo).1.productImages
        = stWithLogo.productImages ∧
    (∀ r, Call.navigate r ∉ (handleSubmit bUpFail time0 (some user1) stWithLogo).2) ∧
    countInserts (handleSubmit bUpFail time0 (some user1) stWithLogo).2 ≤ 1 := by
  have h := submission_failure_keeps_draft bUpFail time0 user1 stWithLogo
    ⟨"upload failed"⟩ rfl
  exact ⟨h.2.2.1, h.2.2.2.1, h.2.2.2.2.1, h.2.1, h.2.2.2.2.2.1⟩
